import Mathlib

/-!
Verification of the session-management core of the `httpx` middleware
library (`session_manager.go`, `session.go`, `session/codec.go`).

The Go code is shallowly embedded: sessions become a Lean structure, the
`map[string]any` value map becomes an association list of `GoVal`s,
`time.Time` becomes `Int` (Unix seconds; `time.Time{}`, the zero time, is
represented by `Option.none` where the code distinguishes it), and the
`Store`/`Codec` collaborators become function fields of the `Manager`
structure returning `Except`/`Option` errors.  Effectful operations
(`Save`, `Load`, the `Handler` middleware) are translated to pure
functions returning an explicit record of their observable effects
(store calls made, cookie written, error returned, final session state).
-/

/-- GoVal models the dynamically typed values (`any`) stored in a session:
int, uint, bool, float32, float64, string, or opaque data.  Floats are
modelled by their bit patterns, which is all the codec round-trip needs. -/
inductive GoVal where
  | vint (n : Int)
  | vuint (n : Nat)
  | vbool (b : Bool)
  | vfloat32 (bits : Nat)
  | vfloat64 (bits : Nat)
  | vstr (s : String)
  | vopaque (payload : List Nat)
  deriving Repr, DecidableEq

/-- Bytes models Go byte slices (`[]byte`). -/
abbrev Bytes := List Nat

/-- Values models the session value map `map[string]any` as an association
list with at most one binding per key (lookup returns the first match). -/
abbrev Values := List (String × GoVal)

/-- lookupKey models Go map indexing `values[key]`: `some v` when present,
`none` (Go `nil`) when absent. -/
def lookupKey : Values → String → Option GoVal
  | [], _ => none
  | (k, v) :: rest, key => if k = key then some v else lookupKey rest key

/-- setKey models Go map assignment `values[key] = value`: any previous
binding for the key is replaced. -/
def setKey (vs : Values) (key : String) (value : GoVal) : Values :=
  (vs.filter fun p => p.1 ≠ key) ++ [(key, value)]

/-- delKey models Go `delete(values, key)`. -/
def delKey (vs : Values) (key : String) : Values :=
  vs.filter fun p => p.1 ≠ key

/-- Session mirrors the Go struct `Session` of `session.go`: identifier,
creation time, value map, and the destruction/modification flags. -/
structure Session where
  id : String
  createdAt : Int
  values : Values
  isDestroyed : Bool
  isModified : Bool
  deriving Repr, DecidableEq

/-- Session.new models `newSession()`.  The Go function draws a fresh
identifier from `genUUIDv7()` and the current time from `time.Now()`;
both are nondeterministic inputs and are passed as parameters. -/
def Session.new (genId : String) (now : Int) : Session :=
  { id := genId, createdAt := now, values := [], isDestroyed := false, isModified := false }

/-- Session.Set models `(*Session).Set`: stores the value and marks the
session modified. -/
def Session.Set (s : Session) (key : String) (value : GoVal) : Session :=
  { s with isModified := true, values := setKey s.values key value }

/-- Session.SetWeak models `(*Session).SetWeak`: stores the value without
touching the `isModified` flag. -/
def Session.SetWeak (s : Session) (key : String) (value : GoVal) : Session :=
  { s with values := setKey s.values key value }

/-- Session.Get models `(*Session).Get`: the raw value, `none` for Go `nil`. -/
def Session.Get (s : Session) (key : String) : Option GoVal :=
  lookupKey s.values key

/-- Session.GetInt models `(*Session).GetInt` (type assertion with zero
default). -/
def Session.GetInt (s : Session) (key : String) : Int :=
  match lookupKey s.values key with
  | some (GoVal.vint n) => n
  | _ => 0

/-- Session.GetUint models `(*Session).GetUint`. -/
def Session.GetUint (s : Session) (key : String) : Nat :=
  match lookupKey s.values key with
  | some (GoVal.vuint n) => n
  | _ => 0

/-- Session.GetBool models `(*Session).GetBool`. -/
def Session.GetBool (s : Session) (key : String) : Bool :=
  match lookupKey s.values key with
  | some (GoVal.vbool b) => b
  | _ => false

/-- Session.GetFloat32 models `(*Session).GetFloat32` (bit pattern, zero
bits for the Go zero value). -/
def Session.GetFloat32 (s : Session) (key : String) : Nat :=
  match lookupKey s.values key with
  | some (GoVal.vfloat32 bits) => bits
  | _ => 0

/-- Session.GetFloat64 models `(*Session).GetFloat64`. -/
def Session.GetFloat64 (s : Session) (key : String) : Nat :=
  match lookupKey s.values key with
  | some (GoVal.vfloat64 bits) => bits
  | _ => 0

/-- Session.GetString models `(*Session).GetString`. -/
def Session.GetString (s : Session) (key : String) : String :=
  match lookupKey s.values key with
  | some (GoVal.vstr str) => str
  | _ => ""

/-- Session.Delete models `(*Session).Delete`: removes the key and marks
the session modified. -/
def Session.Delete (s : Session) (key : String) : Session :=
  { s with isModified := true, values := delKey s.values key }

/-- Session.Clear models `(*Session).Clear`: drops all values and marks
the session modified. -/
def Session.Clear (s : Session) : Session :=
  { s with isModified := true, values := [] }

/-- Session.Destroy models `(*Session).Destroy`: `Clear()` followed by
setting both flags. -/
def Session.Destroy (s : Session) : Session :=
  { s.Clear with isModified := true, isDestroyed := true }

/-- SOp is one mutating session operation, used to reason about arbitrary
sequences of `Set`/`Delete` calls. -/
inductive SOp where
  | set (key : String) (value : GoVal)
  | del (key : String)
  deriving Repr, DecidableEq

/-- applyOp applies one mutating operation to a session. -/
def applyOp (s : Session) : SOp → Session
  | SOp.set key value => s.Set key value
  | SOp.del key => s.Delete key

/-- applyOps applies a sequence of mutating operations left to right. -/
def applyOps (s : Session) : List SOp → Session
  | [] => s
  | op :: rest => applyOps (applyOp s op) rest

/-- applySetWeaks applies a sequence of `SetWeak` calls left to right. -/
def applySetWeaks (s : Session) : List (String × GoVal) → Session
  | [] => s
  | (key, value) :: rest => applySetWeaks (s.SetWeak key value) rest

/-- Manager mirrors `SessionManager` of `session_manager.go`.  The `Store`
backend (`Get`/`Set`/`Delete`) and the `Codec` (`Encode`/`Decode`) are
external collaborators and appear as function fields; errors are `String`s.
`storeGet` returns `Except.error` for a failed lookup, `Except.ok none`
for not-found, and `Except.ok (some data)` for a hit, matching Go's
`(data, found, err)` triple. -/
structure Manager where
  lifetime : Int
  idleTimeout : Int
  storeGet : String → Except String (Option Bytes)
  storeSet : String → Bytes → Int → Option String
  storeDelete : String → Option String
  encode : Int → Values → Except String Bytes
  decode : Bytes → Except String (Int × Values)
  cookieName : String
  cookiePersisted : Bool

/-- SaveResult records the observable effects of one `SessionManager.Save`
call: the returned error, the session afterwards (Go mutates it through a
pointer), the token passed to `Store.Delete` if it was called, the
arguments passed to `Store.Set` if it was called, and the arguments passed
to `writeCookie` if it was called (`none` in the expiry position stands
for the zero `time.Time{}` of the destroy path). -/
structure SaveResult where
  error : Option String
  sess : Session
  deletedId : Option String
  setCall : Option (String × Bytes × Int)
  cookie : Option (String × Option Int)
  deriving Repr, DecidableEq

/-- idleAdjust models the idle-timeout block at the end of `Save`:
when `idleTimeout > 0` and `now + idleTimeout` is before the absolute
expiry, the cookie expiry becomes the idle expiry. -/
def idleAdjust (m : Manager) (now expiresAt : Int) : Int :=
  if 0 < m.idleTimeout then
    let idleExpires := now + m.idleTimeout
    if idleExpires < expiresAt then idleExpires else expiresAt
  else expiresAt

/-- Manager.Save models `SessionManager.Save`. Destroyed sessions are
deleted from the store (early-returning the error, skipping the cookie, on
failure); otherwise a modified session first has its `isModified` flag
cleared, then is encoded and written to the store with the absolute expiry
`createdAt + lifetime` (early-returning on either failure), and finally
the cookie is written with the idle-adjusted expiry.  `now` stands for the
`time.Now()` read in the idle-timeout block. -/
def Manager.Save (m : Manager) (now : Int) (sess : Session) : SaveResult :=
  if sess.isDestroyed then
    match m.storeDelete sess.id with
    | some e =>
      { error := some e, sess := sess, deletedId := some sess.id, setCall := none, cookie := none }
    | none =>
      { error := none, sess := sess, deletedId := some sess.id, setCall := none,
        cookie := some (sess.id, none) }
  else
    let expiresAt := sess.createdAt + m.lifetime
    if sess.isModified then
      let sess1 := { sess with isModified := false }
      match m.encode sess.createdAt sess.values with
      | Except.error e =>
        { error := some e, sess := sess1, deletedId := none, setCall := none, cookie := none }
      | Except.ok data =>
        match m.storeSet sess.id data expiresAt with
        | some e =>
          { error := some e, sess := sess1, deletedId := none,
            setCall := some (sess.id, data, expiresAt), cookie := none }
        | none =>
          { error := none, sess := sess1, deletedId := none,
            setCall := some (sess.id, data, expiresAt),
            cookie := some (sess.id, some (idleAdjust m now expiresAt)) }
    else
      { error := none, sess := sess, deletedId := none, setCall := none,
        cookie := some (sess.id, some (idleAdjust m now expiresAt)) }

/-- Manager.Load models `SessionManager.Load`.  `genId` and `now` stand
for the fresh identifier and timestamp that `newSession()` would draw.
The second component records whether the store was consulted (an empty
token short-circuits before any `Store.Get`). -/
def Manager.Load (m : Manager) (genId : String) (now : Int) (token : String) :
    Except String Session × Bool :=
  if token = "" then (Except.ok (Session.new genId now), false)
  else
    match m.storeGet token with
    | Except.error e => (Except.error e, true)
    | Except.ok none => (Except.ok (Session.new genId now), true)
    | Except.ok (some data) =>
      match m.decode data with
      | Except.error e => (Except.error e, true)
      | Except.ok (createdAt, values) =>
        (Except.ok { id := token, createdAt := createdAt, values := values,
                     isDestroyed := false, isModified := false }, true)

/-- HEvent is one call the downstream handler makes on the wrapped
response writer. -/
inductive HEvent where
  | write
  | writeHeader
  deriving Repr, DecidableEq

/-- HAction is one observable action of the session middleware: a `Save`
invocation, or delegation to the underlying response writer. -/
inductive HAction where
  | save
  | underlyingWrite
  | underlyingWriteHeader
  deriving Repr, DecidableEq

/-- delegateOf maps a handler call to the delegated underlying action. -/
def delegateOf : HEvent → HAction
  | HEvent.write => HAction.underlyingWrite
  | HEvent.writeHeader => HAction.underlyingWriteHeader

/-- swRun models `sessionResponseWriter`: both `Write` and `WriteHeader`
check the `isWritten` flag and, when it is still false, set it and invoke
`Save` before delegating.  Returns the action trace and the final flag. -/
def swRun (isWritten : Bool) : List HEvent → List HAction × Bool
  | [] => ([], isWritten)
  | e :: rest =>
    if isWritten then
      let (tr, fin) := swRun true rest
      (delegateOf e :: tr, fin)
    else
      let (tr, fin) := swRun true rest
      (HAction.save :: delegateOf e :: tr, fin)

/-- handlerTrace models the body of `SessionManager.Handler` after a
successful `Load`: the downstream handler runs against the wrapper
(initial `isWritten = false`), and if it never wrote, `Save` is invoked
once after it returns. -/
def handlerTrace (events : List HEvent) : List HAction :=
  let (tr, isWritten) := swRun false events
  tr ++ (if isWritten then [] else [HAction.save])

/-- HandlerOutcome records the observable outcome of one request through
`SessionManager.Handler`: the status passed to `http.Error` on a load
failure (500), whether the downstream handler was invoked, and the
middleware action trace. -/
structure HandlerOutcome where
  errorStatus : Option Nat
  nextInvoked : Bool
  trace : List HAction
  deriving Repr, DecidableEq

/-- Manager.Handler models `SessionManager.Handler`: the token extracted
from the request cookie is loaded; a load error aborts the request with
`http.StatusInternalServerError` (500) without invoking the downstream
handler; otherwise the handler runs against the save-on-first-write
wrapper, with a final `Save` when nothing was written. -/
def Manager.Handler (m : Manager) (genId : String) (now : Int) (token : String)
    (events : List HEvent) : HandlerOutcome :=
  match (m.Load genId now token).1 with
  | Except.error _ => { errorStatus := some 500, nextInvoked := false, trace := [] }
  | Except.ok _ => { errorStatus := none, nextInvoked := true, trace := handlerTrace events }

/-- hexDigit is the lowercase hex digit for `n < 16`, as produced by Go's
`encoding/hex`. -/
def hexDigit (n : Nat) : Char :=
  if n < 10 then Char.ofNat (48 + n) else Char.ofNat (87 + n)

/-- hexChars hex-encodes a byte list to lowercase characters. -/
def hexChars (bs : List Nat) : List Char :=
  (bs.map fun b => [hexDigit (b / 16 % 16), hexDigit (b % 16)]).flatten

/-- genUUIDv7Bytes models the 16-byte buffer built by `genUUIDv7` in
`session.go`.  `nowMilli` is `time.Now().UnixMilli()`; `rnd` are the ten
bytes that `rand.Read(uuid[6:])` fills in.  The code writes the 64-bit
value `uint64(now) << 16` big-endian over bytes 0..7 (so bytes 0..5 carry
the 48-bit timestamp), overwrites bytes 6..15 with random data, then
forces the version nibble with `uuid[6]&0x0F | 0x70` and computes
`uuid[8] = uuid[8]*0x3F | 0x80` (a multiplication, as written in the
source). -/
def genUUIDv7Bytes (nowMilli : Nat) (rnd : List Nat) : List Nat :=
  let ts := nowMilli % 2 ^ 64 * 2 ^ 16 % 2 ^ 64
  let r := fun i => rnd.getD i 0 % 256
  [ts / 2 ^ 56 % 256, ts / 2 ^ 48 % 256, ts / 2 ^ 40 % 256,
   ts / 2 ^ 32 % 256, ts / 2 ^ 24 % 256, ts / 2 ^ 16 % 256,
   (r 0 &&& 0x0F) ||| 0x70,
   r 1,
   r 2 * 0x3F % 256 ||| 0x80,
   r 3, r 4, r 5, r 6, r 7, r 8, r 9]

/-- genUUIDv7 models `genUUIDv7`: the 16 bytes rendered as the 36-char
hyphenated lowercase-hex UUID string (groups 4-2-2-2-6). -/
def genUUIDv7 (nowMilli : Nat) (rnd : List Nat) : String :=
  let u := genUUIDv7Bytes nowMilli rnd
  String.mk (hexChars (u.take 4) ++ ['-'] ++ hexChars ((u.drop 4).take 2) ++ ['-'] ++
    hexChars ((u.drop 6).take 2) ++ ['-'] ++ hexChars ((u.drop 8).take 2) ++ ['-'] ++
    hexChars (u.drop 10))

/-- GobData mirrors the `gobData` struct of `session/codec.go`: the
payload the codec feeds to the gob encoder. -/
structure GobData where
  CreatedAt : Int
  Values : Values
  deriving Repr, DecidableEq

/-- GobLib stands for Go's `encoding/gob` encoder/decoder pair applied to
a `gobData` value.  Modelled from the spec: the gob machinery itself is
the Go standard library, external to this repository; the spec gives it
only the round-trip contract, which theorems take as a hypothesis. -/
structure GobLib where
  enc : GobData → Except String Bytes
  dec : Bytes → Except String GobData

/-- gobCodecEncode models `gobCodec.Encode` of `session/codec.go`: wrap
the creation time and values in a `gobData` and gob-encode it. -/
def gobCodecEncode (g : GobLib) (createdAt : Int) (values : Values) : Except String Bytes :=
  g.enc { CreatedAt := createdAt, Values := values }

/-- gobCodecDecode models `gobCodec.Decode`: gob-decode a `gobData` and
project out the creation time and values. -/
def gobCodecDecode (g : GobLib) (data : Bytes) : Except String (Int × Values) :=
  match g.dec data with
  | Except.error e => Except.error e
  | Except.ok d => Except.ok (d.CreatedAt, d.Values)

/-- mBase is a concrete manager used to evaluate theorems: every store
operation succeeds, `Get` reports not-found, and the codec encodes to an
empty byte slice. -/
def mBase : Manager :=
  { lifetime := 100, idleTimeout := 0,
    storeGet := fun _ => Except.ok none,
    storeSet := fun _ _ _ => none,
    storeDelete := fun _ => none,
    encode := fun _ _ => Except.ok [],
    decode := fun _ => Except.error "unused",
    cookieName := "session_id", cookiePersisted := true }

/-- mEncFail is mBase with a failing `Codec.Encode`. -/
def mEncFail : Manager :=
  { mBase with encode := fun _ _ => Except.error "encode failed" }

/-- mSetFail is mBase with a failing `Store.Set`. -/
def mSetFail : Manager :=
  { mBase with storeSet := fun _ _ _ => some "set failed" }

/-- mDelFail is mBase with a failing `Store.Delete`. -/
def mDelFail : Manager :=
  { mBase with storeDelete := fun _ => some "delete failed" }

/-- mGetFail is mBase with a failing `Store.Get`. -/
def mGetFail : Manager :=
  { mBase with storeGet := fun _ => Except.error "get failed" }

/-- mFound is mBase whose store finds every token and whose codec decodes
to a fixed payload. -/
def mFound : Manager :=
  { mBase with storeGet := fun _ => Except.ok (some [7]),
               decode := fun _ => Except.ok (42, [("k", GoVal.vint 9)]) }

/-- mIdle is mBase with a ten-second idle timeout. -/
def mIdle : Manager :=
  { mBase with idleTimeout := 10 }

/-- sMod is a concrete live, modified session. -/
def sMod : Session :=
  { id := "sid", createdAt := 0, values := [("k", GoVal.vint 1)],
    isDestroyed := false, isModified := true }

/-- sGone is a concrete destroyed session. -/
def sGone : Session :=
  { id := "sid", createdAt := 0, values := [], isDestroyed := true, isModified := true }

/-- d0 is a concrete `gobData` payload. -/
def d0 : GobData := { CreatedAt := 5, Values := [("user_id", GoVal.vint 123)] }

/-- gLib is a concrete gob-library instance satisfying the round-trip
contract: it encodes exactly the payload `d0` (to the marker byte `[1]`)
and rejects everything else, as gob rejects unregistered types. -/
def gLib : GobLib :=
  { enc := fun d => if d = d0 then Except.ok [1] else Except.error "unregistered",
    dec := fun bs => if bs = [1] then Except.ok d0 else Except.error "bad data" }

/-- Save of any session with `isDestroyed = true` calls `Store.Delete`
and never `Store.Set`. -/
theorem save_destroyed_effects (m : Manager) (now : Int) (s : Session)
    (h : s.isDestroyed = true) :
    (m.Save now s).deletedId = some s.id ∧ (m.Save now s).setCall = none := by
  cases hd : m.storeDelete s.id <;> simp [Manager.Save, h, hd]

/-- Save of a live, unmodified session performs no store operation and
writes the cookie with the idle-adjusted absolute expiry. -/
theorem save_unmodified_effects (m : Manager) (now : Int) (s : Session)
    (h : s.isDestroyed = false) (h2 : s.isModified = false) :
    m.Save now s =
      { error := none, sess := s, deletedId := none, setCall := none,
        cookie := some (s.id, some (idleAdjust m now (s.createdAt + m.lifetime))) } := by
  simp [Manager.Save, h, h2]

/-- idleAdjust written as a single conditional. -/
theorem idleAdjust_eq (m : Manager) (now expiresAt : Int) :
    idleAdjust m now expiresAt =
      if 0 < m.idleTimeout ∧ now + m.idleTimeout < expiresAt then now + m.idleTimeout
      else expiresAt := by
  by_cases h1 : 0 < m.idleTimeout <;> by_cases h2 : now + m.idleTimeout < expiresAt <;>
    simp [idleAdjust, h1, h2]

/-- applyOps never changes the `isDestroyed` flag. -/
theorem applyOps_isDestroyed (ops : List SOp) (s : Session) :
    (applyOps s ops).isDestroyed = s.isDestroyed := by
  induction ops generalizing s with
  | nil => rfl
  | cons op rest ih =>
    cases op <;> simp [applyOps, applyOp, Session.Set, Session.Delete, ih]

/-- applySetWeaks changes neither flag. -/
theorem applySetWeaks_flags (ws : List (String × GoVal)) (s : Session) :
    (applySetWeaks s ws).isModified = s.isModified ∧
      (applySetWeaks s ws).isDestroyed = s.isDestroyed := by
  induction ws generalizing s with
  | nil => exact ⟨rfl, rfl⟩
  | cons p rest ih =>
    cases p with
    | mk key value => simpa [applySetWeaks, Session.SetWeak] using ih (s.SetWeak key value)

/-- C1: the claim as written fails on the code.  `SessionManager.Save`
clears `isModified` before calling `Codec.Encode`/`Store.Set`: with a
failing `Store.Set`, Save returns the error but the flag is already
false, not true as claimed. -/
theorem save_setfail_clears_isModified :
    (mSetFail.Save 0 sMod).error = some "set failed" ∧
      (mSetFail.Save 0 sMod).sess.isModified = false := by
  exact ⟨rfl, rfl⟩

/-- C1 (amended): during Save of a live modified session, `isModified` is
cleared before `Codec.Encode`/`Store.Set` run; if either fails, Save
returns that error and the session's `isModified` flag is false
afterwards. -/
theorem save_failure_returns_error_flag_cleared (m : Manager) (now : Int) (s : Session)
    (e : String) (hd : s.isDestroyed = false) (hm : s.isModified = true)
    (h : m.encode s.createdAt s.values = Except.error e ∨
      ∃ data, m.encode s.createdAt s.values = Except.ok data ∧
        m.storeSet s.id data (s.createdAt + m.lifetime) = some e) :
    (m.Save now s).error = some e ∧ (m.Save now s).sess.isModified = false := by
  rcases h with he | ⟨data, he, hs⟩
  · simp [Manager.Save, hd, hm, he]
  · simp [Manager.Save, hd, hm, he, hs]

/-- C1 witness: a concrete manager whose `Codec.Encode` fails. -/
theorem save_failure_returns_error_flag_cleared_witness :
    (mEncFail.Save 0 sMod).error = some "encode failed" ∧
      (mEncFail.Save 0 sMod).sess.isModified = false := by
  exact save_failure_returns_error_flag_cleared mEncFail 0 sMod "encode failed" rfl rfl
    (Or.inl rfl)

/-- C3: Save writes a cookie exactly when it returns no error, and each
failing backend or codec operation (Delete of a destroyed session,
Encode or Set of a modified live session) propagates its error as the
result of Save. -/
theorem save_error_iff_no_cookie (m : Manager) (now : Int) (s : Session) :
    ((m.Save now s).cookie.isSome = (m.Save now s).error.isNone) ∧
      (∀ e, s.isDestroyed = true → m.storeDelete s.id = some e →
        (m.Save now s).error = some e) ∧
      (∀ e, s.isDestroyed = false → s.isModified = true →
        m.encode s.createdAt s.values = Except.error e → (m.Save now s).error = some e) ∧
      (∀ e data, s.isDestroyed = false → s.isModified = true →
        m.encode s.createdAt s.values = Except.ok data →
        m.storeSet s.id data (s.createdAt + m.lifetime) = some e →
        (m.Save now s).error = some e) := by
  refine ⟨?_, ?_, ?_, ?_⟩
  · by_cases hd : s.isDestroyed = true
    · cases hdel : m.storeDelete s.id <;> simp [Manager.Save, hd, hdel]
    · have hd2 : s.isDestroyed = false := by simpa using hd
      by_cases hm : s.isModified = true
      · cases he : m.encode s.createdAt s.values with
        | error e => simp [Manager.Save, hd2, hm, he]
        | ok data =>
          cases hs : m.storeSet s.id data (s.createdAt + m.lifetime) <;>
            simp [Manager.Save, hd2, hm, he, hs]
      · have hm2 : s.isModified = false := by simpa using hm
        simp [Manager.Save, hd2, hm2]
  · intro e hd hdel
    simp [Manager.Save, hd, hdel]
  · intro e hd hm he
    simp [Manager.Save, hd, hm, he]
  · intro e data hd hm he hs
    simp [Manager.Save, hd, hm, he, hs]

/-- C3 witness: a destroyed session whose `Store.Delete` fails — Save
returns the error and no cookie is written. -/
theorem save_error_iff_no_cookie_witness :
    (mDelFail.Save 0 sGone).error = some "delete failed" ∧
      (mDelFail.Save 0 sGone).cookie = none := by
  exact ⟨(save_error_iff_no_cookie mDelFail 0 sGone).2.1 "delete failed" rfl rfl, rfl⟩

/-- Once the wrapper's `isWritten` flag is set, every further call just
delegates. -/
theorem swRun_written (events : List HEvent) :
    swRun true events = (events.map delegateOf, true) := by
  induction events with
  | nil => rfl
  | cons e rest ih => simp [swRun, ih]

/-- handlerTrace is one `Save` followed by the delegated calls, whether
or not the downstream handler wrote anything. -/
theorem handlerTrace_eq (events : List HEvent) :
    handlerTrace events = HAction.save :: events.map delegateOf := by
  cases events with
  | nil => rfl
  | cons e rest => simp [handlerTrace, swRun, swRun_written rest]

/-- Delegated actions are never `Save` invocations. -/
theorem save_not_mem_delegated (events : List HEvent) :
    HAction.save ∉ events.map delegateOf := by
  intro h
  rcases List.mem_map.mp h with ⟨e, _, he⟩
  cases e <;> simp [delegateOf] at he

/-- C2: for every request whose session loads successfully, the Handler
trace is exactly one `Save` followed by the delegated writer calls: the
wrapper saves before delegating the first `Write`/`WriteHeader` and never
again, and a handler that never writes still gets exactly one `Save`
after it returns (the trace is `[save]` when `events` is empty). -/
theorem handler_saves_exactly_once (m : Manager) (genId : String) (now : Int)
    (token : String) (events : List HEvent) (s : Session)
    (h : (m.Load genId now token).1 = Except.ok s) :
    (m.Handler genId now token events).trace = HAction.save :: events.map delegateOf ∧
      HAction.save ∉ events.map delegateOf := by
  refine ⟨?_, save_not_mem_delegated events⟩
  simp [Manager.Handler, h, handlerTrace_eq]

/-- C2 witness: an empty token loads a fresh session and two writes
produce the trace save, write, write. -/
theorem handler_saves_exactly_once_witness :
    (mBase.Handler "g" 0 "" [HEvent.write, HEvent.write]).trace =
      [HAction.save, HAction.underlyingWrite, HAction.underlyingWrite] ∧
      HAction.save ∉ [HEvent.write, HEvent.write].map delegateOf := by
  exact handler_saves_exactly_once mBase "g" 0 "" [HEvent.write, HEvent.write]
    (Session.new "g" 0) rfl

/-- C4: with a non-empty token, a failing `Store.Get` or a failing
`Codec.Decode` aborts the request with a 500 response, never invokes the
downstream handler, and `Load` yields the error rather than a fabricated
fresh session. -/
theorem handler_load_failure_aborts (m : Manager) (genId : String) (now : Int)
    (token : String) (events : List HEvent) (e : String) (ht : token ≠ "")
    (h : m.storeGet token = Except.error e ∨
      ∃ data, m.storeGet token = Except.ok (some data) ∧ m.decode data = Except.error e) :
    (m.Handler genId now token events).errorStatus = some 500 ∧
      (m.Handler genId now token events).nextInvoked = false ∧
      (m.Load genId now token).1 = Except.error e := by
  rcases h with hget | ⟨data, hget, hdec⟩
  · simp [Manager.Handler, Manager.Load, ht, hget]
  · simp [Manager.Handler, Manager.Load, ht, hget, hdec]

/-- C4 witness: a concrete manager whose `Store.Get` fails. -/
theorem handler_load_failure_aborts_witness :
    (mGetFail.Handler "g" 0 "abc" [HEvent.write]).errorStatus = some 500 ∧
      (mGetFail.Handler "g" 0 "abc" [HEvent.write]).nextInvoked = false ∧
      (mGetFail.Load "g" 0 "abc").1 = Except.error "get failed" := by
  exact handler_load_failure_aborts mGetFail "g" 0 "abc" [HEvent.write] "get failed"
    (by decide) (Or.inl rfl)

/-- C5: after `Destroy()` both flags are true and every key reads as
absent (nil from `Get`, zero values from the typed getters); any sequence
of `Set`/`Delete` calls after `Destroy` leaves `isDestroyed` true, and a
subsequent Save calls `Store.Delete` on the session id and never
`Store.Set`. -/
theorem destroy_precedence (s : Session) (ops : List SOp) (m : Manager) (now : Int) :
    (s.Destroy).isDestroyed = true ∧ (s.Destroy).isModified = true ∧
      (∀ key, (s.Destroy).Get key = none ∧ (s.Destroy).GetInt key = 0 ∧
        (s.Destroy).GetUint key = 0 ∧ (s.Destroy).GetBool key = false ∧
        (s.Destroy).GetFloat32 key = 0 ∧ (s.Destroy).GetFloat64 key = 0 ∧
        (s.Destroy).GetString key = "") ∧
      (applyOps (s.Destroy) ops).isDestroyed = true ∧
      (m.Save now (applyOps (s.Destroy) ops)).deletedId =
        some (applyOps (s.Destroy) ops).id ∧
      (m.Save now (applyOps (s.Destroy) ops)).setCall = none := by
  have hdes : (applyOps (s.Destroy) ops).isDestroyed = true := by
    rw [applyOps_isDestroyed]; rfl
  have heff := save_destroyed_effects m now (applyOps (s.Destroy) ops) hdes
  exact ⟨rfl, rfl,
    fun key => ⟨rfl, rfl, rfl, rfl, rfl, rfl, rfl⟩,
    hdes, heff.1, heff.2⟩

/-- C6: for a live session saved without error, the `Store.Set` call of a
modified session uses the absolute expiry `createdAt + lifetime`, while
the cookie carries the idle expiry `now + idleTimeout` exactly when
`idleTimeout > 0` and that expiry is earlier, and the absolute expiry
otherwise. -/
theorem save_cookie_idle_expiry (m : Manager) (now : Int) (s : Session) (data : Bytes)
    (hd : s.isDestroyed = false) (hm : s.isModified = true)
    (he : m.encode s.createdAt s.values = Except.ok data)
    (hs : m.storeSet s.id data (s.createdAt + m.lifetime) = none) :
    (m.Save now s).setCall = some (s.id, data, s.createdAt + m.lifetime) ∧
      (m.Save now s).cookie = some (s.id,
        some (if 0 < m.idleTimeout ∧ now + m.idleTimeout < s.createdAt + m.lifetime
          then now + m.idleTimeout else s.createdAt + m.lifetime)) := by
  refine ⟨?_, ?_⟩ <;> simp [Manager.Save, hd, hm, he, hs, idleAdjust_eq]

/-- C6 witness: lifetime 100, idle timeout 10, `now = 50`: the store
record expires at 100 while the cookie expires at 60. -/
theorem save_cookie_idle_expiry_witness :
    (mIdle.Save 50 sMod).setCall = some ("sid", [], 100) ∧
      (mIdle.Save 50 sMod).cookie = some ("sid", some 60) := by
  have h := save_cookie_idle_expiry mIdle 50 sMod [] rfl rfl rfl rfl
  simpa using h

/-- C7: the claim as written fails on the code.  When the store reports
not-found, `Load` builds the fresh session from `genUUIDv7()`, whose
output does not depend on the token but is not structurally prevented
from equalling it: here the unresolvable token is itself a possible
generator output, and a load in which the generator draws exactly that
value yields a fresh session whose id equals the token. -/
theorem load_notfound_fresh_id_can_equal_token :
    genUUIDv7 0 [] = "00000000-0000-7000-8000-000000000000" ∧
      (mBase.Load (genUUIDv7 0 []) 0 "00000000-0000-7000-8000-000000000000").1 =
        Except.ok
          { id := "00000000-0000-7000-8000-000000000000", createdAt := 0,
            values := [], isDestroyed := false, isModified := false } := by
  exact ⟨rfl, rfl⟩

/-- C7 (amended): an empty token yields a freshly created session (new
id, empty values, both flags false) with no store access; a non-empty
not-found token yields a freshly created session whose id is the newly
generated identifier, independent of the token (though not guaranteed to
differ from it); a found token yields a session preserving the token as
id and the decoded creation time and values. -/
theorem load_behavior (m : Manager) (genId : String) (now : Int) (token : String) :
    (token = "" → m.Load genId now token = (Except.ok (Session.new genId now), false)) ∧
      (token ≠ "" → m.storeGet token = Except.ok none →
        m.Load genId now token = (Except.ok (Session.new genId now), true)) ∧
      (∀ data createdAt values, token ≠ "" →
        m.storeGet token = Except.ok (some data) →
        m.decode data = Except.ok (createdAt, values) →
        m.Load genId now token =
          (Except.ok
            { id := token, createdAt := createdAt, values := values,
              isDestroyed := false, isModified := false }, true)) := by
  refine ⟨?_, ?_, ?_⟩
  · intro h; simp [Manager.Load, h]
  · intro h hg; simp [Manager.Load, h, hg]
  · intro data createdAt values h hg hdec; simp [Manager.Load, h, hg, hdec]

/-- C7 witness: all three branches evaluated on concrete managers. -/
theorem load_behavior_witness :
    mBase.Load "g" 7 "" = (Except.ok (Session.new "g" 7), false) ∧
      mBase.Load "g" 7 "tok" = (Except.ok (Session.new "g" 7), true) ∧
      mFound.Load "g" 7 "tok" =
        (Except.ok
          { id := "tok", createdAt := 42, values := [("k", GoVal.vint 9)],
            isDestroyed := false, isModified := false }, true) := by
  exact ⟨(load_behavior mBase "g" 7 "").1 rfl,
    (load_behavior mBase "g" 7 "tok").2.1 (by decide) rfl,
    (load_behavior mFound "g" 7 "tok").2.2 [7] 42 [("k", GoVal.vint 9)] (by decide) rfl rfl⟩

/-- C8: the gob codec round-trips: given the gob library's round-trip
contract on `gobData`, `Decode(Encode(t, v))` returns `t` and a mapping
equal to `v` with no error, for every creation time and value mapping of
the supported types. -/
theorem gob_codec_roundtrip (g : GobLib)
    (hrt : ∀ d bs, g.enc d = Except.ok bs → g.dec bs = Except.ok d)
    (t : Int) (v : Values) (bs : Bytes)
    (henc : gobCodecEncode g t v = Except.ok bs) :
    gobCodecDecode g bs = Except.ok (t, v) := by
  have h := hrt _ bs henc
  simp [gobCodecDecode, h]

/-- C8 witness: a concrete gob-library instance satisfying the contract,
evaluated on a concrete payload. -/
theorem gob_codec_roundtrip_witness :
    gobCodecDecode gLib [1] = Except.ok (5, [("user_id", GoVal.vint 123)]) := by
  refine gob_codec_roundtrip gLib ?_ 5 [("user_id", GoVal.vint 123)] [1] ?_
  · intro d bs h
    by_cases hd : d = d0
    · subst hd
      simp [gLib] at h
      subst h
      simp [gLib]
    · simp [gLib, hd] at h
  · rfl

/-- C9: the claim that the generated token always carries the RFC 4122
variant bits fails on the code.  The source computes
`uuid[8] = uuid[8]*0x3F | 0x80` — a multiplication where the standard
masking would use `&` — so when the third random byte is 0x04 the variant
byte becomes 0xFC, whose top two bits are 11, not the claimed 10.  The
token is still non-empty with the stable length 36 and a correct version
nibble. -/
theorem genUUIDv7_variant_bug :
    (genUUIDv7 0 [0, 0, 4, 0, 0, 0, 0, 0, 0, 0]).length = 36 ∧
      genUUIDv7 0 [0, 0, 4, 0, 0, 0, 0, 0, 0, 0] =
        "00000000-0000-7000-fc00-000000000000" ∧
      (genUUIDv7Bytes 0 [0, 0, 4, 0, 0, 0, 0, 0, 0, 0]).getD 8 0 = 0xFC ∧
      (genUUIDv7Bytes 0 [0, 0, 4, 0, 0, 0, 0, 0, 0, 0]).getD 8 0 >>> 6 = 3 := by
  decide

/-- C10: `SetWeak` updates the value map exactly as `Set` does while
leaving both flags (and id and creation time) unchanged; a fresh session
mutated only through `SetWeak` still has `isModified = false`, and Save
performs neither a `Store.Set` nor a `Store.Delete` for it, so the weakly
set values are never persisted. -/
theorem setweak_frame (s : Session) (key : String) (value : GoVal)
    (ws : List (String × GoVal)) (genId : String) (now : Int) (m : Manager) :
    (s.SetWeak key value).isModified = s.isModified ∧
      (s.SetWeak key value).isDestroyed = s.isDestroyed ∧
      (s.SetWeak key value).values = (s.Set key value).values ∧
      (s.SetWeak key value).id = s.id ∧
      (s.SetWeak key value).createdAt = s.createdAt ∧
      (applySetWeaks (Session.new genId now) ws).isModified = false ∧
      (m.Save now (applySetWeaks (Session.new genId now) ws)).setCall = none ∧
      (m.Save now (applySetWeaks (Session.new genId now) ws)).deletedId = none := by
  have hf := applySetWeaks_flags ws (Session.new genId now)
  have h1 : (applySetWeaks (Session.new genId now) ws).isModified = false := by
    rw [hf.1]; rfl
  have h2 : (applySetWeaks (Session.new genId now) ws).isDestroyed = false := by
    rw [hf.2]; rfl
  have hs := save_unmodified_effects m now _ h2 h1
  refine ⟨rfl, rfl, rfl, rfl, rfl, h1, ?_, ?_⟩ <;> rw [hs]
